import Mathlib

/-!
Verification of the offline-first synchronization engine: a shallow
embedding of the local store (`indexed-db.service`), the request router
(`offline.interceptor`) and the sync orchestrator (`sync.service`),
together with proofs about the drain, the routing table, the status
stream and the initialization protocol.
-/

namespace OfflineFirst

/-- JSON-like values carried as request/response bodies and mutation
payloads.  Mirrors the untyped `any` payloads of the source; `null`
stands for an absent body. -/
inductive Json where
  | null : Json
  | bool (b : Bool) : Json
  | num (n : Int) : Json
  | str (s : String) : Json
  | obj (fields : List (String × Json)) : Json

/-- JavaScript truthiness of a JSON value (`if (x)`): `null`, `false`,
`0` and the empty string are falsy; objects are always truthy. -/
def Json.truthy : Json → Bool
  | .null => false
  | .bool b => b
  | .num n => n != 0
  | .str s => s != ""
  | .obj _ => true

/-- Model of `models.ts` `OutboxItem` — a pending mutation queued while
offline.  `id` is the store-assigned auto-increment key (IndexedDB keys
start at 1, so `id = 0` encodes a missing id, as `item.id` being
undefined does in the source). -/
structure OutboxItem where
  id : Nat
  url : String
  method : String
  payload : Json
  timestamp : Nat

/-- Model of `models.ts` `SyncConflict` — a mutation rejected with a client
error, parked for manual resolution. -/
structure SyncConflict where
  id : Nat
  url : String
  method : String
  payload : Json
  timestamp : Nat
  error : String

/-- Model of `models.ts` `CacheItem` — a cached response body keyed by URL. -/
structure CacheItem where
  key : String
  data : Json
  timestamp : Nat

/-- Model of `models.ts` `SessionNote` — the example domain record. -/
structure SessionNote where
  id : String
  clientName : String
  note : String
  timestamp : Nat
  shiftDate : String
deriving DecidableEq

/-- Model of `sync.service.ts` — the published `SyncStatus` record. -/
structure SyncStatus where
  isSyncing : Bool
  totalItems : Nat
  completedItems : Nat
  failedItems : Nat
deriving DecidableEq

/-- Model of `http.utils.ts` `isMutationMethod`. -/
def isMutationMethod (m : String) : Bool :=
  m == "POST" || m == "PUT" || m == "DELETE"

/-- Model of `http.utils.ts` `isGetMethod`. -/
def isGetMethod (m : String) : Bool :=
  m == "GET"

/-- Model of `http.utils.ts` `isClientError` — 4xx statuses. -/
def isClientError (status : Nat) : Bool :=
  400 ≤ status && status < 500

/-- Angular's `HttpClient` delivers a response on the success channel
exactly when its status is 2xx (`HttpResponseBase.ok`); every other
status (and a transport failure, encoded as status 0) arrives on the
error channel. -/
def isSuccessStatus (status : Nat) : Bool :=
  200 ≤ status && status < 300

/-- The four collections of `indexed-db.service.ts`, plus the two
auto-increment key counters.  `outbox` and `conflicts` are kept in
primary-key (= insertion) order, as the object stores are. -/
structure Db where
  outbox : List OutboxItem
  nextOutboxId : Nat
  conflicts : List SyncConflict
  nextConflictId : Nat
  cache : List CacheItem
  sessionNotes : List SessionNote

/-- Model of `IndexedDbService.addToOutbox` — stores the item with
`timestamp: item.timestamp || Date.now()` (`0` is falsy in JS) and the
next auto-increment key. -/
def addToOutbox (db : Db) (url method : String) (payload : Json) (ts now : Nat) :
    Db × Nat :=
  let stored := if ts = 0 then now else ts
  let item : OutboxItem :=
    { id := db.nextOutboxId, url := url, method := method
      payload := payload, timestamp := stored }
  ({ db with outbox := db.outbox ++ [item], nextOutboxId := db.nextOutboxId + 1 },
   db.nextOutboxId)

/-- The linear order an IndexedDB index imposes on records: ascending
index key (`timestamp`), ties broken by ascending primary key (`id`). -/
def outboxKeyLe (a b : OutboxItem) : Prop :=
  a.timestamp < b.timestamp ∨ (a.timestamp = b.timestamp ∧ a.id ≤ b.id)

instance : DecidableRel outboxKeyLe := fun a b => by
  unfold outboxKeyLe; infer_instance

/-- Insertion of one record at its index position. -/
def sortedInsertOutbox (x : OutboxItem) : List OutboxItem → List OutboxItem
  | [] => [x]
  | y :: ys => if outboxKeyLe x y then x :: y :: ys else y :: sortedInsertOutbox x ys

/-- Model of `index.getAll()` on the `by-timestamp` index: records sorted by
(timestamp, primary key). -/
def indexGetAllOutbox (l : List OutboxItem) : List OutboxItem :=
  l.foldr sortedInsertOutbox []

/-- Model of `IndexedDbService.getOutbox` — snapshot of the outbox via the
`by-timestamp` index. -/
def getOutbox (db : Db) : List OutboxItem :=
  indexGetAllOutbox db.outbox

/-- Model of `IndexedDbService.removeFromOutbox` — a `delete` by primary key
(idempotent). -/
def removeFromOutbox (db : Db) (id : Nat) : Db :=
  { db with outbox := db.outbox.filter (fun it => it.id ≠ id) }

/-- Model of `IndexedDbService.addToSyncConflicts` — append with the next
auto-increment key and `timestamp: item.timestamp || Date.now()`. -/
def addToSyncConflicts (db : Db) (url method : String) (payload : Json)
    (ts now : Nat) (err : String) : Db :=
  let stored := if ts = 0 then now else ts
  let c : SyncConflict :=
    { id := db.nextConflictId, url := url, method := method
      payload := payload, timestamp := stored, error := err }
  { db with conflicts := db.conflicts ++ [c], nextConflictId := db.nextConflictId + 1 }

/-- IndexedDB `put` : upsert by primary key. -/
def cachePut : List CacheItem → CacheItem → List CacheItem
  | [], it => [it]
  | c :: cs, it => if c.key == it.key then it :: cs else c :: cachePut cs it

/-- Model of `IndexedDbService.cacheGet` (a write, despite its name) — stores
`{key, data, timestamp: Date.now()}` with `put`. -/
def cacheGet (db : Db) (key : String) (data : Json) (now : Nat) : Db :=
  { db with cache := cachePut db.cache ⟨key, data, now⟩ }

/-- Model of `IndexedDbService.getCached`, `item ? item.data : null` — an
absent entry and a stored `null` both come back as `null`. -/
def getCached (db : Db) (key : String) : Json :=
  match db.cache.find? (fun c => c.key == key) with
  | some it => it.data
  | none => Json.null

/-- An HTTP request as the router sees it; `body = Json.null` encodes
a request without a body. -/
structure HttpRequest where
  method : String
  url : String
  body : Json

/-- An `HttpResponse` as synthesized or propagated by the router. -/
structure HttpResponseM where
  status : Nat
  statusText : String
  body : Json

/-- Model of `OfflineInterceptor.createOfflineMutationResponse` — the
method-specific optimistic response body. -/
def createOfflineMutationResponse (method : String) (body : Json) : Json :=
  if method == "POST" then
    .obj [("success", .bool true),
          ("message", .str "Saved offline, will sync when online"),
          ("data", body)]
  else if method == "PUT" then
    .obj [("success", .bool true),
          ("message", .str "Updated offline, will sync when online"),
          ("data", body)]
  else if method == "DELETE" then
    .obj [("success", .bool true),
          ("message", .str "Delete queued offline, will sync when online")]
  else
    .obj [("success", .bool true),
          ("message", .str "Saved offline, will sync when online")]

/-- Model of `OfflineInterceptor.handleOfflineMutation` — queue
`{url, method, payload: req.body || {}, timestamp: Date.now()}` and
return a synthetic 200. -/
def handleOfflineMutation (db : Db) (req : HttpRequest) (now : Nat) :
    Db × HttpResponseM :=
  let payload := if req.body.truthy then req.body else Json.obj []
  let (db1, _) := addToOutbox db req.url req.method payload now now
  (db1, { status := 200, statusText := "OK"
          body := createOfflineMutationResponse req.method req.body })

/-- Model of `OfflineInterceptor.handleOfflineGet` — serve the cached data if
truthy, else a 503; the store is only read. -/
def handleOfflineGet (db : Db) (req : HttpRequest) : Db × HttpResponseM :=
  let cachedData := getCached db req.url
  if cachedData.truthy then
    (db, { status := 200, statusText := "OK (Cached)", body := cachedData })
  else
    (db, { status := 503, statusText := "Service Unavailable"
           body := .obj [("error", .str "No cached data available and device is offline")] })

/-- Model of `OfflineInterceptor.handleOnlineGet` — forward, and on a response
with `status === 200` write the body to the cache; every event and
error is propagated unchanged.  `remote` is the outcome of
`next.handle(req)`. -/
def handleOnlineGet (db : Db) (req : HttpRequest) (now : Nat)
    (remote : Except String HttpResponseM) : Db × Except String HttpResponseM :=
  match remote with
  | .ok resp =>
      if resp.status == 200 then (cacheGet db req.url resp.body now, .ok resp)
      else (db, .ok resp)
  | .error e => (db, .error e)

/-- Result of one pass through `OfflineInterceptor.intercept`:
the store afterwards, the observable outcome delivered to the caller
(`.ok` = the success channel), and whether `next.handle` was invoked. -/
structure InterceptResult where
  db : Db
  response : Except String HttpResponseM
  usedNetwork : Bool

/-- Model of `OfflineInterceptor.intercept` — the four-way routing table.
Offline handlers resolve their promise, so their outcome is always on
the success channel. -/
def intercept (online : Bool) (db : Db) (req : HttpRequest) (now : Nat)
    (remote : Except String HttpResponseM) : InterceptResult :=
  if !online && isMutationMethod req.method then
    let (db1, resp) := handleOfflineMutation db req now
    ⟨db1, .ok resp, false⟩
  else if !online && isGetMethod req.method then
    let (db1, resp) := handleOfflineGet db req
    ⟨db1, .ok resp, false⟩
  else if online && isGetMethod req.method then
    let (db1, r) := handleOnlineGet db req now remote
    ⟨db1, r, true⟩
  else
    ⟨db, remote, true⟩

/-- Reimplementation of `Except.isOk` without relying on library naming. -/
def exceptIsOk : Except String HttpResponseM → Bool
  | .ok _ => true
  | .error _ => false

/-!
Section: The sync orchestrator (`sync.service.ts`)

The drain (`processOutboxItems` piped through `concatMap`) is embedded
as a sequential loop over the snapshot, emitting a trace of observable
events: remote calls issued and answered, statuses published on
`statusSubject`, and the store contents at each suspension point where
another cooperatively scheduled task could run.  The remote endpoint
is an oracle `resp` giving the HTTP status of each item's replay
(status 0 encodes a transport failure).
-/

/-- An observable event of one drain. -/
inductive SyncEv where
  | callIssued (method url : String) (payload : Json)
  | callCompleted (method url : String) (status : Nat)
  | statusPublished (s : SyncStatus)
  | storeState (outbox : List OutboxItem) (conflicts : List SyncConflict)

/-- Result of processing part of the snapshot: store, current status,
event trace, and whether the stream is still alive (`false` once
`handleSyncError` rethrows a non-client error). -/
structure ProcResult where
  db : Db
  status : SyncStatus
  evs : List SyncEv
  alive : Bool

/-- One snapshot item, as `SyncService.processItem` +
`incrementCompletedItems` / `handleSyncError` treat it:
an item without an id throws before any call is issued (killing the
stream); a 2xx response removes the item and bumps `completedItems`;
a 4xx response runs `handleClientError` (conflict added, then the item
removed — two separate store transactions with a suspension between);
anything else runs `handleServerError` and rethrows.  The success-path
removal is initiated inside `tap` at response time; it is traced here
after the status publish. -/
def processItemEvs (resp : OutboxItem → Nat) (now : Nat) (db : Db)
    (st : SyncStatus) (item : OutboxItem) : ProcResult :=
  if item.id = 0 then
    { db := db, status := st, evs := [], alive := false }
  else
    let code := resp item
    let callEvs := [SyncEv.callIssued item.method item.url item.payload,
                    SyncEv.callCompleted item.method item.url code]
    if isSuccessStatus code then
      let st1 := { st with completedItems := st.completedItems + 1 }
      let db1 := if item.id ≠ 0 then removeFromOutbox db item.id else db
      { db := db1, status := st1
        evs := callEvs ++ [.statusPublished st1, .storeState db1.outbox db1.conflicts]
        alive := true }
    else if isClientError code then
      let db1 := addToSyncConflicts db item.url item.method item.payload
                   item.timestamp now ("HTTP " ++ toString code)
      let db2 := if item.id ≠ 0 then removeFromOutbox db1 item.id else db1
      let st1 := { st with completedItems := st.completedItems + 1
                           failedItems := st.failedItems + 1 }
      { db := db2, status := st1
        evs := callEvs ++ [.storeState db1.outbox db1.conflicts,
                           .storeState db2.outbox db2.conflicts,
                           .statusPublished st1]
        alive := true }
    else
      let st1 := { st with isSyncing := false }
      { db := db, status := st1
        evs := callEvs ++ [.statusPublished st1]
        alive := false }

/-- Model of `SyncService.processOutboxItems` — `concatMap` replays the
snapshot strictly in order, one item in flight at a time, stopping as
soon as an item's handling rethrows. -/
def processOutboxItems (resp : OutboxItem → Nat) (now : Nat) :
    List OutboxItem → Db → SyncStatus → ProcResult
  | [], db, st => { db := db, status := st, evs := [], alive := true }
  | item :: rest, db, st =>
    let r := processItemEvs resp now db st item
    if r.alive then
      let r2 := processOutboxItems resp now rest r.db r.status
      { db := r2.db, status := r2.status, evs := r.evs ++ r2.evs, alive := r2.alive }
    else
      r

/-- Model of `SyncService.sync`, past its `shouldSkipSync` guard (the guard and
its race are modeled separately): snapshot the outbox, return silently
if it is empty, otherwise publish the start status, drain, and on
normal completion publish the terminal all-zero reset
(`handleSyncComplete`); when the stream died on a server/network error
no reset is published. -/
def syncRun (resp : OutboxItem → Nat) (db : Db) (now : Nat) :
    Db × SyncStatus × List SyncEv :=
  let snapshot := getOutbox db
  if snapshot.isEmpty then
    (db, ⟨false, 0, 0, 0⟩, [])
  else
    let startSt : SyncStatus := ⟨true, snapshot.length, 0, 0⟩
    let r := processOutboxItems resp now snapshot db startSt
    if r.alive then
      let finalSt : SyncStatus := ⟨false, 0, 0, 0⟩
      (r.db, finalSt,
       .statusPublished startSt :: r.evs ++ [.statusPublished finalSt])
    else
      (r.db, r.status, .statusPublished startSt :: r.evs)

/-- The remote-call events of a trace. -/
def callEvents (evs : List SyncEv) : List SyncEv :=
  evs.filter fun e =>
    match e with
    | .callIssued _ _ _ => true
    | .callCompleted _ _ _ => true
    | _ => false

/-- The statuses published on `statusSubject`, in order. -/
def publishedStatuses (evs : List SyncEv) : List SyncStatus :=
  evs.filterMap fun e =>
    match e with
    | .statusPublished s => some s
    | _ => none

/-!
Section: Cooperative interleaving of `SyncService.sync` calls

`sync()` checks `shouldSkipSync()` synchronously, then suspends on
`await this.indexedDb.getOutbox()`, and only after resuming sets
`isSyncing := true` (in `startSync`) and issues the first remote call
(`processOutboxItems` subscribes and fires synchronously).  Each task
below walks through exactly those suspension points; a schedule picks
which task steps next.
-/

namespace Race

/-- Program counter of one `sync()` invocation.  `draining s` means the
call has passed `startSync` and its drain over snapshot `s` is running
(the drain body itself is `OfflineFirst.syncRun` above). -/
inductive Pc where
  | start
  | awaitOutbox
  | draining (snapshot : List OutboxItem)
  | done

/-- Shared state of the service and its collaborators. -/
structure World where
  online : Bool
  isSyncing : Bool
  outbox : List OutboxItem
  calls : List (String × String)

/-- Two `sync()` invocations plus the shared state. -/
structure Config where
  w : World
  pc0 : Pc
  pc1 : Pc

/-- One resumption of a `sync()` task.
`start`: run `shouldSkipSync`; a skip is a no-op `done`, otherwise
suspend on `getOutbox`.  `awaitOutbox`: receive the snapshot; if empty
return, otherwise `startSync` sets `isSyncing` and the first remote
call is issued synchronously.  A task in `draining` continues the
drain (not needed for the property below). -/
def taskStep (w : World) : Pc → World × Pc
  | .start =>
      if w.isSyncing || !w.online then (w, .done) else (w, .awaitOutbox)
  | .awaitOutbox =>
      match indexGetAllOutbox w.outbox with
      | [] => (w, .done)
      | first :: rest =>
          ({ w with isSyncing := true
                    calls := w.calls ++ [(first.method, first.url)] },
           .draining (first :: rest))
  | .draining s => (w, .draining s)
  | .done => (w, .done)

/-- Step task 0 (`false`) or task 1 (`true`). -/
def step (c : Config) (who : Bool) : Config :=
  if who then
    let (w, pc) := taskStep c.w c.pc1
    { c with w := w, pc1 := pc }
  else
    let (w, pc) := taskStep c.w c.pc0
    { c with w := w, pc0 := pc }

/-- Run a schedule. -/
def run (s : List Bool) (c : Config) : Config :=
  s.foldl step c

/-- Whether a task has an active drain. -/
def Pc.isDraining : Pc → Bool
  | .draining _ => true
  | _ => false

end Race

/-!
Section: Cooperative interleaving of `IndexedDbService.init` calls

`init()` returns at once when `this.db` is already set; otherwise it
suspends on `openDB` (whose upgrade callback runs only when the stored
version is below 3, per IndexedDB semantics), assigns `this.db`,
and runs `initSampleData`: count the `sessionNotes` store, and if the
count is 0, `add` the two fixed notes one at a time — `add` rejects an
existing primary key, and the surrounding `try` swallows that error,
ending the seeding.  Sample note ids are `'1'` and `'2'`; they are
modeled as the numbers 1 and 2.
-/

namespace Init

/-- Program counter of one `init()` invocation, one constructor per
suspension point. -/
inductive Pc where
  | start
  | opened
  | counting
  | counted (c : Nat)
  | added1
  | done
deriving DecidableEq

/-- State shared by all `init()` invocations: whether the schema
upgrade has run (stored version 3 rather than 0), how many times the
upgrade callback ran, which connection `this.db` holds (`some t` =
the one task `t` opened), and the `sessionNotes` store as a list of
note ids in insertion order. -/
structure Shared where
  upgraded : Bool
  upgradeCount : Nat
  dbField : Option (Fin 2)
  notes : List Nat
deriving DecidableEq

/-- Two `init()` invocations plus the shared state. -/
structure Config where
  sh : Shared
  pc0 : Pc
  pc1 : Pc
deriving DecidableEq

/-- IndexedDB `add`: reject when the primary key exists. -/
def addNote (sh : Shared) (id : Nat) : Option Shared :=
  if id ∈ sh.notes then none else some { sh with notes := sh.notes ++ [id] }

/-- One resumption of `init()` by task `tid`. -/
def taskStep (tid : Fin 2) (sh : Shared) : Pc → Shared × Pc
  | .start =>
      if sh.dbField.isSome then (sh, .done)
      else if sh.upgraded then (sh, .opened)
      else ({ sh with upgraded := true, upgradeCount := sh.upgradeCount + 1 }, .opened)
  | .opened => ({ sh with dbField := some tid }, .counting)
  | .counting => (sh, .counted sh.notes.length)
  | .counted c =>
      if c ≠ 0 then (sh, .done)
      else
        match addNote sh 1 with
        | none => (sh, .done)
        | some sh1 => (sh1, .added1)
  | .added1 =>
      match addNote sh 2 with
      | none => (sh, .done)
      | some sh1 => (sh1, .done)
  | .done => (sh, .done)

/-- Step task 0 (`false`) or task 1 (`true`). -/
def step (c : Config) (who : Bool) : Config :=
  if who then
    let (sh, pc) := taskStep 1 c.sh c.pc1
    { c with sh := sh, pc1 := pc }
  else
    let (sh, pc) := taskStep 0 c.sh c.pc0
    { c with sh := sh, pc0 := pc }

/-- Run a schedule. -/
def run (s : List Bool) (c : Config) : Config :=
  s.foldl step c

/-- Let both tasks run to completion (stepping a finished task is a
no-op, so this only completes whatever the schedule left pending). -/
def finish (c : Config) : Config :=
  run [true, true, true, true, true, true] (run [false, false, false, false, false, false] c)

/-- Fresh service over an empty on-disk database. -/
def initConfig : Config :=
  ⟨⟨false, 0, none, []⟩, .start, .start⟩

/-- All next configurations. -/
def nexts (c : Config) : List Config :=
  [step c false, step c true]

/-- One widening of a configuration set. -/
def expand (l : List Config) : List Config :=
  (l ++ l.flatMap nexts).dedup

/-- Iterated widening. -/
def expandN : Nat → List Config → List Config
  | 0, l => l
  | n + 1, l => expandN n (expand l)

/-- Every configuration reachable from `initConfig` (the task programs
have at most five suspension points each, so 12 widenings close the
set). -/
def reachableConfigs : List Config :=
  expandN 12 [initConfig]

end Init

/-!
Section: Claims about the request router
-/

/-- The status of the remote outcome delivered by `next.handle`
(`none` for a transport-level failure). -/
def remoteStatus : Except String HttpResponseM → Option Nat
  | .ok resp => some resp.status
  | .error _ => none

/-- The body of a successful remote outcome. -/
def remoteBody : Except String HttpResponseM → Json
  | .ok resp => resp.body
  | .error _ => Json.null

/-- C5 counterexample: an offline DELETE whose request body is null —
the client's `http.delete` sends none — is queued with payload `{}`
(the source stores `payload: req.body || {}`), not with the request's
body, so the queued PendingMutation does not capture the body the
claim prescribes. -/
theorem offline_delete_null_body_payload_replaced :
    (intercept false ⟨[], 1, [], 1, [], []⟩
        ⟨"DELETE", "/api/session-notes/1", Json.null⟩ 5 (.error "offline")).db.outbox =
      [⟨1, "/api/session-notes/1", "DELETE", Json.obj [], 5⟩] ∧
    (⟨"DELETE", "/api/session-notes/1", Json.null⟩ : HttpRequest).body = Json.null ∧
    Json.obj [] ≠ Json.null :=
  ⟨rfl, rfl, fun h => Json.noConfusion h⟩

/-- C5 (amended): a mutation request issued while offline appends
exactly one pending mutation capturing its url and method, with
payload equal to the request's body when that body is truthy and the
empty object `{}` when it is null or otherwise falsy (the source
stores `req.body || {}`); it touches no other collection, contacts no
network, and returns a synthesized 200 whose body carries
`success: true` and the method-specific message. -/
theorem offline_mutation_queues_and_responds (db : Db) (req : HttpRequest)
    (now : Nat) (remote : Except String HttpResponseM)
    (hmut : isMutationMethod req.method = true) :
    (intercept false db req now remote).db.outbox =
      db.outbox ++ [⟨db.nextOutboxId, req.url, req.method,
        (if req.body.truthy then req.body else Json.obj []), now⟩] ∧
    (intercept false db req now remote).db.conflicts = db.conflicts ∧
    (intercept false db req now remote).db.cache = db.cache ∧
    (intercept false db req now remote).db.sessionNotes = db.sessionNotes ∧
    (intercept false db req now remote).usedNetwork = false ∧
    (intercept false db req now remote).response =
      .ok ⟨200, "OK", createOfflineMutationResponse req.method req.body⟩ ∧
    (req.method = "POST" → createOfflineMutationResponse req.method req.body =
      .obj [("success", .bool true),
            ("message", .str "Saved offline, will sync when online"),
            ("data", req.body)]) ∧
    (req.method = "PUT" → createOfflineMutationResponse req.method req.body =
      .obj [("success", .bool true),
            ("message", .str "Updated offline, will sync when online"),
            ("data", req.body)]) ∧
    (req.method = "DELETE" → createOfflineMutationResponse req.method req.body =
      .obj [("success", .bool true),
            ("message", .str "Delete queued offline, will sync when online")]) := by
  obtain ⟨m, u, b⟩ := req
  simp only at hmut ⊢
  simp only [isMutationMethod, Bool.or_eq_true, beq_iff_eq] at hmut
  rcases hmut with (hm | hm) | hm <;> subst hm <;>
    refine ⟨?_, rfl, rfl, rfl, rfl, rfl, ?_, ?_, ?_⟩ <;>
    simp [intercept, isMutationMethod, isGetMethod, handleOfflineMutation,
      addToOutbox, createOfflineMutationResponse]

/-- C5 witness: both payload branches — the spec's concrete offline
`PUT /api/session-notes/1` with truthy body `{note: "x"}`, and a
null-body offline DELETE queued with payload `{}`. -/
theorem offline_mutation_queues_and_responds_witness :
    isMutationMethod "PUT" = true ∧
    (intercept false ⟨[], 1, [], 1, [], []⟩
        ⟨"PUT", "/api/session-notes/1", Json.obj [("note", Json.str "x")]⟩ 5 (.error "offline")).db.outbox =
      [] ++ [⟨1, "/api/session-notes/1", "PUT",
        (if (Json.obj [("note", Json.str "x")]).truthy then Json.obj [("note", Json.str "x")]
         else Json.obj []), 5⟩] ∧
    isMutationMethod "DELETE" = true ∧
    (intercept false ⟨[], 1, [], 1, [], []⟩
        ⟨"DELETE", "/api/session-notes/2", Json.null⟩ 6 (.error "offline")).db.outbox =
      [] ++ [⟨1, "/api/session-notes/2", "DELETE",
        (if (Json.null).truthy then Json.null else Json.obj []), 6⟩] :=
  ⟨rfl,
   (offline_mutation_queues_and_responds ⟨[], 1, [], 1, [], []⟩
      ⟨"PUT", "/api/session-notes/1", Json.obj [("note", Json.str "x")]⟩ 5 (.error "offline")
      rfl).1,
   rfl,
   (offline_mutation_queues_and_responds ⟨[], 1, [], 1, [], []⟩
      ⟨"DELETE", "/api/session-notes/2", Json.null⟩ 6 (.error "offline")
      rfl).1⟩

/-- With pairwise distinct cache keys, `find?` by key returns exactly
the member carrying that key. -/
theorem cache_find?_eq_of_mem (l : List CacheItem) (url : String) (e : CacheItem)
    (hnd : (l.map CacheItem.key).Nodup) (he : e ∈ l) (hk : e.key = url) :
    l.find? (fun c => c.key == url) = some e := by
  induction l with
  | nil => cases he
  | cons a as ih =>
    rcases List.mem_cons.mp he with rfl | hmem
    · rw [List.find?_cons_of_pos _ (by simp [hk])]
    · have hane : a.key ≠ url := by
        intro hau
        have hmm : a.key ∈ as.map CacheItem.key := by
          rw [hau, ← hk]
          exact List.mem_map_of_mem CacheItem.key hmem
        exact (List.nodup_cons.mp hnd).1 hmm
      rw [List.find?_cons_of_neg _ (by simp [hane])]
      exact ih (List.nodup_cons.mp hnd).2 hmem

/-- C6 counterexample: an offline GET for a URL whose cache entry
exists but stores `null` data is answered 503, although a `CacheEntry`
for that URL exists — the source's truthiness test (`if (cachedData)`)
conflates a falsy cached body with a missing entry. -/
theorem offline_get_existing_null_entry_503 :
    ((⟨[], 1, [], 1, [⟨"/api/session-notes", Json.null, 5⟩], []⟩ : Db).cache.any
        fun c => c.key == "/api/session-notes") = true ∧
    (intercept false ⟨[], 1, [], 1, [⟨"/api/session-notes", Json.null, 5⟩], []⟩
        ⟨"GET", "/api/session-notes", Json.null⟩ 9 (.error "offline")).response =
      .ok ⟨503, "Service Unavailable",
           .obj [("error", .str "No cached data available and device is offline")]⟩ ∧
    isSuccessStatus 503 = false :=
  ⟨rfl, rfl, rfl⟩

/-- C6 (amended): an offline GET leaves every collection untouched and
issues no network call; if a cache entry with truthy data exists for
the URL it is served with status 200, tagged `OK (Cached)`; if every
entry for the URL (in particular, if there is none) has falsy data,
the caller receives the synthesized 503 with its explanatory body. -/
theorem offline_get_serves_cache_or_503 (db : Db) (req : HttpRequest)
    (now : Nat) (remote : Except String HttpResponseM)
    (hget : isGetMethod req.method = true)
    (hnd : (db.cache.map CacheItem.key).Nodup) :
    (intercept false db req now remote).db = db ∧
    (intercept false db req now remote).usedNetwork = false ∧
    (∀ e ∈ db.cache, e.key = req.url → e.data.truthy = true →
      (intercept false db req now remote).response =
        .ok ⟨200, "OK (Cached)", e.data⟩) ∧
    ((∀ e ∈ db.cache, e.key = req.url → e.data.truthy = false) →
      (intercept false db req now remote).response =
        .ok ⟨503, "Service Unavailable",
             .obj [("error", .str "No cached data available and device is offline")]⟩) := by
  obtain ⟨m, u, b⟩ := req
  simp only [isGetMethod, beq_iff_eq] at hget
  subst hget
  have hroute : intercept false db ⟨"GET", u, b⟩ now remote =
      ⟨(handleOfflineGet db ⟨"GET", u, b⟩).1,
        .ok (handleOfflineGet db ⟨"GET", u, b⟩).2, false⟩ := rfl
  refine ⟨?_, ?_, ?_, ?_⟩
  · rw [hroute]
    unfold handleOfflineGet
    dsimp only
    split <;> rfl
  · rw [hroute]
  · intro e he hk ht
    have hfind : db.cache.find? (fun c => c.key == u) = some e :=
      cache_find?_eq_of_mem db.cache u e hnd he hk
    rw [hroute]
    simp only [handleOfflineGet, getCached, hfind, ht, if_true]
  · intro hall
    have hfalsy : (getCached db u).truthy = false := by
      unfold getCached
      cases hfind : db.cache.find? (fun c => c.key == u) with
      | none => rfl
      | some e =>
          have he := List.mem_of_find?_eq_some hfind
          have hk : e.key = u := by
            have hp := List.find?_some hfind
            simpa using hp
          exact hall e he hk
    rw [hroute]
    simp only [handleOfflineGet, hfalsy]
    rfl

/-- C6 witness: a cache hit with truthy data and, on the same store, a
miss for an uncached URL. -/
theorem offline_get_serves_cache_or_503_witness :
    isGetMethod "GET" = true ∧
    (([⟨"/api/session-notes", Json.obj [("a", Json.num 1)], 4⟩] : List CacheItem).map
      CacheItem.key).Nodup ∧
    (intercept false ⟨[], 1, [], 1, [⟨"/api/session-notes", Json.obj [("a", Json.num 1)], 4⟩], []⟩
        ⟨"GET", "/api/session-notes", Json.null⟩ 9 (.error "offline")).response =
      .ok ⟨200, "OK (Cached)", Json.obj [("a", Json.num 1)]⟩ :=
  ⟨rfl, by simp,
   (offline_get_serves_cache_or_503
      ⟨[], 1, [], 1, [⟨"/api/session-notes", Json.obj [("a", Json.num 1)], 4⟩], []⟩
      ⟨"GET", "/api/session-notes", Json.null⟩ 9 (.error "offline") rfl (by simp)).2.2.1
      ⟨"/api/session-notes", Json.obj [("a", Json.num 1)], 4⟩ (List.mem_singleton.mpr rfl) rfl rfl⟩

/-- C7 counterexample: a successful online GET whose response status is
201 — a 2xx success — creates no cache entry, because
`handleOnlineGet` caches only on `status === 200`. -/
theorem online_get_201_success_not_cached :
    isSuccessStatus 201 = true ∧
    (intercept true ⟨[], 1, [], 1, [], []⟩ ⟨"GET", "/api/session-notes", Json.null⟩ 7
        (.ok ⟨201, "Created", Json.obj []⟩)).db.cache = [] ∧
    (intercept true ⟨[], 1, [], 1, [], []⟩ ⟨"GET", "/api/session-notes", Json.null⟩ 7
        (.ok ⟨201, "Created", Json.obj []⟩)).response = .ok ⟨201, "Created", Json.obj []⟩ :=
  ⟨rfl, rfl, rfl⟩

/-- C7 (amended): the cache gains or overwrites an entry for the
request URL with the remote body exactly when an online GET receives a
response with status 200 (not any other 2xx); every online request's
outcome, success or error, is propagated to the caller unchanged; and
no other request — offline requests and online mutations included —
ever creates or alters any cache entry. -/
theorem cache_written_iff_online_get_200 (online : Bool) (db : Db)
    (req : HttpRequest) (now : Nat) (remote : Except String HttpResponseM) :
    (intercept online db req now remote).db.cache =
      (if online = true ∧ isGetMethod req.method = true ∧ remoteStatus remote = some 200
       then cachePut db.cache ⟨req.url, remoteBody remote, now⟩
       else db.cache) ∧
    (intercept true db req now remote).response = remote := by
  constructor
  · cases online with
    | false =>
        have hc : ¬(false = true ∧ isGetMethod req.method = true ∧
            remoteStatus remote = some 200) := by
          rintro ⟨h, -⟩; cases h
        rw [if_neg hc]
        by_cases hmut : isMutationMethod req.method = true
        · simp only [intercept, Bool.not_false, Bool.true_and, hmut, if_true,
            handleOfflineMutation, addToOutbox]
        · by_cases hget : isGetMethod req.method = true
          · have hroute : intercept false db req now remote =
                ⟨(handleOfflineGet db req).1,
                  .ok (handleOfflineGet db req).2, false⟩ := by
              simp [intercept, hmut, hget]
            rw [hroute]
            unfold handleOfflineGet
            dsimp only
            split <;> rfl
          · simp [intercept, hmut, hget]
    | true =>
        by_cases hget : isGetMethod req.method = true
        · have hmut : isMutationMethod req.method = false := by
            simp only [isGetMethod, beq_iff_eq] at hget
            rw [hget]; rfl
          have hroute : intercept true db req now remote =
              ⟨(handleOnlineGet db req now remote).1,
                (handleOnlineGet db req now remote).2, true⟩ := by
            simp [intercept, hmut, hget]
          rw [hroute]
          cases remote with
          | error e =>
              rw [if_neg (by rintro ⟨-, -, h⟩; cases h)]
              rfl
          | ok resp =>
              by_cases h200 : resp.status = 200
              · have hb : (resp.status == 200) = true := by simpa using h200
                have hs : remoteStatus (.ok resp) = some 200 := by
                  simp [remoteStatus, h200]
                rw [if_pos ⟨rfl, hget, hs⟩]
                simp only [handleOnlineGet, hb, if_true, cacheGet, remoteBody]
              · have hb : (resp.status == 200) = false := by simpa using h200
                rw [if_neg (by
                  rintro ⟨-, -, h⟩
                  exact h200 (by simpa [remoteStatus] using h))]
                simp only [handleOnlineGet, hb, Bool.false_eq_true, if_false]
        · have hc : ¬(true = true ∧ isGetMethod req.method = true ∧
              remoteStatus remote = some 200) := by
            rintro ⟨-, h, -⟩; exact hget h
          rw [if_neg hc]
          by_cases hmut : isMutationMethod req.method = true <;>
            simp [intercept, hmut, hget]
  · by_cases hget : isGetMethod req.method = true
    · have hmut : isMutationMethod req.method = false := by
        simp only [isGetMethod, beq_iff_eq] at hget
        rw [hget]; rfl
      have hroute : intercept true db req now remote =
          ⟨(handleOnlineGet db req now remote).1,
            (handleOnlineGet db req now remote).2, true⟩ := by
        simp [intercept, hmut, hget]
      rw [hroute]
      cases remote with
      | error e => rfl
      | ok resp =>
          show (handleOnlineGet db req now (.ok resp)).2 = .ok resp
          unfold handleOnlineGet
          dsimp only
          split <;> rfl
    · by_cases hmut : isMutationMethod req.method = true <;>
        simp [intercept, hmut, hget]

/-- C10: every request the router handles offline — queued mutation,
cache hit, and cache miss alike — is delivered on the observable's
success channel; in particular the no-cached-data outcome is a normal
`HttpResponse` value with status 503, not an error emission, so the
caller's error callback never fires for an offline-handled request. -/
theorem offline_paths_resolve_on_success_channel (db : Db) (req : HttpRequest)
    (now : Nat) (remote : Except String HttpResponseM)
    (hoff : isMutationMethod req.method = true ∨ isGetMethod req.method = true) :
    exceptIsOk (intercept false db req now remote).response = true ∧
    (isGetMethod req.method = true → (getCached db req.url).truthy = false →
      (intercept false db req now remote).response =
        .ok ⟨503, "Service Unavailable",
             .obj [("error", .str "No cached data available and device is offline")]⟩) := by
  constructor
  · rcases hoff with hmut | hget
    · simp [intercept, hmut, exceptIsOk]
    · by_cases hmut : isMutationMethod req.method = true
      · simp [intercept, hmut, exceptIsOk]
      · simp only [intercept, Bool.not_false, Bool.true_and, hmut, if_false,
          if_neg (by simp : ¬(false = true)), hget, if_true]
        rfl
  · intro hget hfalsy
    have hmut : isMutationMethod req.method = false := by
      simp only [isGetMethod, beq_iff_eq] at hget
      rw [hget]; rfl
    simp only [intercept, Bool.not_false, Bool.true_and, hmut,
      if_neg (by simp : ¬(false = true)), hget, if_true, handleOfflineGet]
    simp [hfalsy]

/-- C10 witness: an offline GET with an empty cache resolves with the
503 response on the success channel. -/
theorem offline_paths_resolve_on_success_channel_witness :
    (isMutationMethod "GET" = true ∨ isGetMethod "GET" = true) ∧
    exceptIsOk (intercept false ⟨[], 1, [], 1, [], []⟩
        ⟨"GET", "/api/session-notes", Json.null⟩ 9 (.error "offline")).response = true :=
  ⟨Or.inr rfl,
   (offline_paths_resolve_on_success_channel ⟨[], 1, [], 1, [], []⟩
      ⟨"GET", "/api/session-notes", Json.null⟩ 9 (.error "offline") (Or.inr rfl)).1⟩

/-!
Section: Claims about the sync orchestrator
-/

/-- The queued mutation used to exhibit the `sync()` guard race. -/
def raceItem : OutboxItem :=
  ⟨1, "/api/session-notes/1", "PUT", Json.obj [("note", Json.str "x")], 5⟩

/-- Online, not syncing, one queued mutation, and two `sync()` calls
about to run. -/
def raceStart : Race.Config :=
  ⟨⟨true, false, [raceItem], []⟩, .start, .start⟩

/-- C2: `sync()` checks `shouldSkipSync()` before suspending on
`getOutbox()` and only sets `isSyncing` afterwards, so two calls
interleaved at that suspension both pass the guard: after the schedule
below both invocations are in `Draining` at once and the single queued
mutation's remote call has been issued twice — the single-active-drain
property fails on the code. -/
theorem sync_guard_race_two_drains :
    (Race.run [false, true, false, true] raceStart).pc0.isDraining = true ∧
    (Race.run [false, true, false, true] raceStart).pc1.isDraining = true ∧
    (Race.run [false, true, false, true] raceStart).w.calls =
      [("PUT", "/api/session-notes/1"), ("PUT", "/api/session-notes/1")] :=
  ⟨rfl, rfl, rfl⟩

/-- Statuses in 4xx and 2xx are disjoint ranges. -/
theorem clientError_not_success {s : Nat} (h : isClientError s = true) :
    isSuccessStatus s = false := by
  simp only [isClientError, Bool.and_eq_true, decide_eq_true_eq] at h
  simp only [isSuccessStatus, Bool.and_eq_false_iff, decide_eq_false_iff_not]
  omega

/-- Evaluating `processItemEvs` on a 2xx item: remove it and publish the advanced
completed count. -/
theorem processItemEvs_success (resp : OutboxItem → Nat) (now : Nat) (db : Db)
    (st : SyncStatus) (item : OutboxItem)
    (hz : item.id ≠ 0) (hs : isSuccessStatus (resp item) = true) :
    processItemEvs resp now db st item =
      { db := removeFromOutbox db item.id
        status := { st with completedItems := st.completedItems + 1 }
        evs := [.callIssued item.method item.url item.payload,
                .callCompleted item.method item.url (resp item),
                .statusPublished { st with completedItems := st.completedItems + 1 },
                .storeState (removeFromOutbox db item.id).outbox
                  (removeFromOutbox db item.id).conflicts]
        alive := true } := by
  unfold processItemEvs
  rw [if_neg hz]
  dsimp only
  rw [if_pos hs, if_pos hz]
  rfl

/-- Evaluating `processItemEvs` on a 4xx item: conflict appended, then the item
removed, then a status with both counters advanced. -/
theorem processItemEvs_clientError (resp : OutboxItem → Nat) (now : Nat) (db : Db)
    (st : SyncStatus) (item : OutboxItem)
    (hz : item.id ≠ 0) (h4 : isClientError (resp item) = true) :
    processItemEvs resp now db st item =
      { db := removeFromOutbox
          (addToSyncConflicts db item.url item.method item.payload item.timestamp now
            ("HTTP " ++ toString (resp item))) item.id
        status := { st with completedItems := st.completedItems + 1
                            failedItems := st.failedItems + 1 }
        evs := [.callIssued item.method item.url item.payload,
                .callCompleted item.method item.url (resp item),
                .storeState
                  (addToSyncConflicts db item.url item.method item.payload item.timestamp now
                    ("HTTP " ++ toString (resp item))).outbox
                  (addToSyncConflicts db item.url item.method item.payload item.timestamp now
                    ("HTTP " ++ toString (resp item))).conflicts,
                .storeState
                  (removeFromOutbox
                    (addToSyncConflicts db item.url item.method item.payload item.timestamp now
                      ("HTTP " ++ toString (resp item))) item.id).outbox
                  (removeFromOutbox
                    (addToSyncConflicts db item.url item.method item.payload item.timestamp now
                      ("HTTP " ++ toString (resp item))) item.id).conflicts,
                .statusPublished { st with completedItems := st.completedItems + 1
                                           failedItems := st.failedItems + 1 }]
        alive := true } := by
  unfold processItemEvs
  rw [if_neg hz]
  dsimp only
  rw [if_neg (by simp [clientError_not_success h4]), if_pos h4, if_pos hz]
  rfl

/-- Evaluating `processItemEvs` on a transport/server failure: store untouched,
`isSyncing` dropped, stream dead. -/
theorem processItemEvs_fatal (resp : OutboxItem → Nat) (now : Nat) (db : Db)
    (st : SyncStatus) (item : OutboxItem)
    (hz : item.id ≠ 0) (hns : isSuccessStatus (resp item) = false)
    (hnc : isClientError (resp item) = false) :
    processItemEvs resp now db st item =
      { db := db
        status := { st with isSyncing := false }
        evs := [.callIssued item.method item.url item.payload,
                .callCompleted item.method item.url (resp item),
                .statusPublished { st with isSyncing := false }]
        alive := false } := by
  unfold processItemEvs
  rw [if_neg hz]
  dsimp only
  rw [if_neg (by simp [hns]), if_neg (by simp [hnc])]
  rfl

/-- Equation for `processOutboxItems` unrolled one step. -/
theorem processOutboxItems_cons (resp : OutboxItem → Nat) (now : Nat)
    (item : OutboxItem) (rest : List OutboxItem) (db : Db) (st : SyncStatus) :
    processOutboxItems resp now (item :: rest) db st =
      (let r := processItemEvs resp now db st item
       if r.alive then
         let r2 := processOutboxItems resp now rest r.db r.status
         { db := r2.db, status := r2.status, evs := r.evs ++ r2.evs, alive := r2.alive }
       else r) := rfl

/-- The filter `callEvents` ignores publishes and store snapshots and distributes
over concatenation. -/
theorem callEvents_append (a b : List SyncEv) :
    callEvents (a ++ b) = callEvents a ++ callEvents b :=
  List.filter_append ..

/-- The filter `publishedStatuses` distributes over concatenation. -/
theorem publishedStatuses_append (a b : List SyncEv) :
    publishedStatuses (a ++ b) = publishedStatuses a ++ publishedStatuses b :=
  List.filterMap_append ..

/-- Combining two adjacency chains. -/
theorem chain'_and {α : Type} {R S : α → α → Prop} :
    ∀ {l : List α}, l.Chain' R → l.Chain' S →
      l.Chain' fun a b => R a b ∧ S a b := by
  intro l
  induction l with
  | nil => intro _ _; exact List.chain'_nil
  | cons x xs ih =>
    cases xs with
    | nil => intro _ _; exact List.chain'_singleton ..
    | cons y ys =>
      intro hR hS
      rw [List.chain'_cons] at hR hS ⊢
      exact ⟨⟨hR.1, hS.1⟩, ih hR.2 hS.2⟩

/-- Reading the outbox through the `by-timestamp` index returns a list
that is already in index order unchanged. -/
theorem indexGetAllOutbox_of_sorted :
    ∀ l : List OutboxItem, l.Chain' outboxKeyLe → indexGetAllOutbox l = l := by
  intro l
  induction l with
  | nil => intro _; rfl
  | cons x xs ih =>
    intro h
    have hrec : indexGetAllOutbox xs = xs := ih h.tail
    show sortedInsertOutbox x (indexGetAllOutbox xs) = x :: xs
    rw [hrec]
    cases xs with
    | nil => rfl
    | cons y ys =>
      have hxy : outboxKeyLe x y := (List.chain'_cons.mp h).1
      unfold sortedInsertOutbox
      rw [if_pos hxy]

/-- An all-success drain stays alive and issues one call per item, in
snapshot order, each completed before the next is issued. -/
theorem processOutboxItems_allSuccess (resp : OutboxItem → Nat) (now : Nat) :
    ∀ (items : List OutboxItem) (db : Db) (st : SyncStatus),
      (∀ it ∈ items, it.id ≠ 0) →
      (∀ it ∈ items, isSuccessStatus (resp it) = true) →
      (processOutboxItems resp now items db st).alive = true ∧
      callEvents (processOutboxItems resp now items db st).evs =
        items.flatMap fun it =>
          [SyncEv.callIssued it.method it.url it.payload,
           SyncEv.callCompleted it.method it.url (resp it)] := by
  intro items
  induction items with
  | nil => intro db st _ _; exact ⟨rfl, rfl⟩
  | cons item rest ih =>
    intro db st hnz hok
    have hz : item.id ≠ 0 := hnz item (List.mem_cons_self item rest)
    have hs : isSuccessStatus (resp item) = true :=
      hok item (List.mem_cons_self item rest)
    have hrest := ih (removeFromOutbox db item.id)
      { st with completedItems := st.completedItems + 1 }
      (fun it hit => hnz it (List.mem_cons_of_mem item hit))
      (fun it hit => hok it (List.mem_cons_of_mem item hit))
    rw [processOutboxItems_cons]
    rw [processItemEvs_success resp now db st item hz hs]
    dsimp only
    rw [if_pos rfl]
    dsimp only
    refine ⟨hrest.1, ?_⟩
    rw [callEvents_append, hrest.2]
    rfl

/-- C1: with the outbox in insertion order (strictly increasing store
keys) and enqueue timestamps non-decreasing — ties in `enqueuedAt`
broken by insertion order through the index's (timestamp, key)
ordering — a drain in which every remote call succeeds issues exactly
one call per queued mutation, strictly in enqueue order, and each
call completes before the next one is issued. -/
theorem drain_all_success_replays_in_enqueue_order (resp : OutboxItem → Nat)
    (db : Db) (now : Nat)
    (hid : db.outbox.Chain' fun a b => a.id < b.id)
    (hts : db.outbox.Chain' fun a b => a.timestamp ≤ b.timestamp)
    (hnz : ∀ it ∈ db.outbox, it.id ≠ 0)
    (hok : ∀ it ∈ db.outbox, isSuccessStatus (resp it) = true) :
    callEvents (syncRun resp db now).2.2 =
      db.outbox.flatMap fun it =>
        [SyncEv.callIssued it.method it.url it.payload,
         SyncEv.callCompleted it.method it.url (resp it)] := by
  have hsorted : db.outbox.Chain' outboxKeyLe := by
    refine (chain'_and hts hid).imp ?_
    intro a b hab
    rcases Nat.lt_or_ge a.timestamp b.timestamp with hlt | hge
    · exact Or.inl hlt
    · exact Or.inr ⟨Nat.le_antisymm hab.1 hge, Nat.le_of_lt hab.2⟩
  have hsnap : getOutbox db = db.outbox :=
    indexGetAllOutbox_of_sorted db.outbox hsorted
  unfold syncRun
  rw [hsnap]
  cases houtbox : db.outbox with
  | nil => rfl
  | cons x xs =>
      rw [← houtbox]
      have hne : db.outbox.isEmpty = false := by rw [houtbox]; rfl
      rw [if_neg (by simp [hne])]
      dsimp only
      have hall := processOutboxItems_allSuccess resp now db.outbox db
        ⟨true, db.outbox.length, 0, 0⟩ hnz hok
      rw [if_pos hall.1]
      dsimp only
      show callEvents (.statusPublished _ ::
        ((processOutboxItems resp now db.outbox db _).evs ++ [.statusPublished _])) = _
      rw [show ∀ (s : SyncStatus) (l : List SyncEv),
            callEvents (.statusPublished s :: l) = callEvents l from fun _ _ => rfl]
      rw [callEvents_append, hall.2]
      simp [callEvents]

/-- C1 witness: two mutations with equal `enqueuedAt`, all replays
succeeding — the calls go out in insertion order, alternating
issue/complete. -/
theorem drain_all_success_replays_in_enqueue_order_witness :
    (([⟨1, "/a", "POST", Json.null, 5⟩, ⟨2, "/b", "PUT", Json.null, 5⟩] :
        List OutboxItem).Chain' fun a b => a.id < b.id) ∧
    callEvents (syncRun (fun _ => 200)
        ⟨[⟨1, "/a", "POST", Json.null, 5⟩, ⟨2, "/b", "PUT", Json.null, 5⟩], 3, [], 1, [], []⟩
        9).2.2 =
      [SyncEv.callIssued "POST" "/a" Json.null, SyncEv.callCompleted "POST" "/a" 200,
       SyncEv.callIssued "PUT" "/b" Json.null, SyncEv.callCompleted "PUT" "/b" 200] :=
  ⟨by simp [List.chain'_cons],
   drain_all_success_replays_in_enqueue_order (fun _ => 200)
      ⟨[⟨1, "/a", "POST", Json.null, 5⟩, ⟨2, "/b", "PUT", Json.null, 5⟩], 3, [], 1, [], []⟩
      9 (by simp [List.chain'_cons]) (by simp [List.chain'_cons])
      (by intro it hit; fin_cases hit <;> simp)
      (by intro it hit; fin_cases hit <;> rfl)⟩

/-- The per-item status values the spec's status-stream description
prescribes for one drain that processes every snapshot item: one value
per processed item, `failedItems` counting the client errors so far
(the flag list), `totalItems` pinned to the snapshot size, and
`isSyncing` held; `completedItems` advances with every processed item
(for a client-error item the source advances it alongside
`failedItems`). -/
def perItemStatuses (n : Nat) : Nat → Nat → List Bool → List SyncStatus
  | _, _, [] => []
  | completed, failed, f :: fs =>
    let c := completed + 1
    let fl := if f then failed + 1 else failed
    ⟨true, n, c, fl⟩ :: perItemStatuses n c fl fs

/-- A drain of all-non-fatal items stays alive and publishes exactly
the per-item statuses. -/
theorem processOutboxItems_publish_trace (resp : OutboxItem → Nat) (now : Nat) :
    ∀ (items : List OutboxItem) (db : Db) (n c f : Nat),
      (∀ it ∈ items, it.id ≠ 0) →
      (∀ it ∈ items, isSuccessStatus (resp it) = true ∨ isClientError (resp it) = true) →
      (processOutboxItems resp now items db ⟨true, n, c, f⟩).alive = true ∧
      publishedStatuses (processOutboxItems resp now items db ⟨true, n, c, f⟩).evs =
        perItemStatuses n c f (items.map fun it => isClientError (resp it)) := by
  intro items
  induction items with
  | nil => intro db n c f _ _; exact ⟨rfl, rfl⟩
  | cons item rest ih =>
    intro db n c f hnz hnf
    have hz : item.id ≠ 0 := hnz item (List.mem_cons_self item rest)
    have hrestnz : ∀ it ∈ rest, it.id ≠ 0 :=
      fun it hit => hnz it (List.mem_cons_of_mem item hit)
    have hrestnf : ∀ it ∈ rest,
        isSuccessStatus (resp it) = true ∨ isClientError (resp it) = true :=
      fun it hit => hnf it (List.mem_cons_of_mem item hit)
    rcases hnf item (List.mem_cons_self item rest) with hs | h4
    · have h4f : isClientError (resp item) = false := by
        simp only [isSuccessStatus, Bool.and_eq_true, decide_eq_true_eq] at hs
        simp only [isClientError, Bool.and_eq_false_iff, decide_eq_false_iff_not]
        omega
      have hrest := ih (removeFromOutbox db item.id) n (c + 1) f hrestnz hrestnf
      rw [processOutboxItems_cons]
      rw [processItemEvs_success resp now db ⟨true, n, c, f⟩ item hz hs]
      dsimp only
      rw [if_pos rfl]
      dsimp only
      refine ⟨hrest.1, ?_⟩
      rw [publishedStatuses_append]
      show (⟨true, n, c + 1, f⟩ : SyncStatus) :: publishedStatuses _ = _
      rw [hrest.2]
      simp only [List.map_cons, perItemStatuses, h4f]
      rfl
    · have hrest := ih
        (removeFromOutbox
          (addToSyncConflicts db item.url item.method item.payload item.timestamp now
            ("HTTP " ++ toString (resp item))) item.id) n (c + 1) (f + 1)
        hrestnz hrestnf
      rw [processOutboxItems_cons]
      rw [processItemEvs_clientError resp now db ⟨true, n, c, f⟩ item hz h4]
      dsimp only
      rw [if_pos rfl]
      dsimp only
      refine ⟨hrest.1, ?_⟩
      rw [publishedStatuses_append]
      show (⟨true, n, c + 1, f + 1⟩ : SyncStatus) :: publishedStatuses _ = _
      rw [hrest.2]
      simp only [List.map_cons, perItemStatuses, h4]
      rfl

/-- C8: over a drain in which every item either succeeds or hits a
client error, the orchestrator publishes a status on every transition:
first the start value (syncing, snapshot size, zero counters), then
one value per item — `completedItems` advanced on a success,
`failedItems` (the client-error count) advanced on a client error —
and finally the terminal all-zero/not-syncing reset. -/
theorem drain_publishes_status_on_every_transition (resp : OutboxItem → Nat)
    (db : Db) (now : Nat)
    (hne : (getOutbox db).isEmpty = false)
    (hnz : ∀ it ∈ getOutbox db, it.id ≠ 0)
    (hnf : ∀ it ∈ getOutbox db,
      isSuccessStatus (resp it) = true ∨ isClientError (resp it) = true) :
    publishedStatuses (syncRun resp db now).2.2 =
      ⟨true, (getOutbox db).length, 0, 0⟩ ::
        perItemStatuses (getOutbox db).length 0 0
          ((getOutbox db).map fun it => isClientError (resp it)) ++
        [⟨false, 0, 0, 0⟩] := by
  unfold syncRun
  rw [if_neg (by simp [hne])]
  dsimp only
  have hall := processOutboxItems_publish_trace resp now (getOutbox db) db
    (getOutbox db).length 0 0 hnz hnf
  rw [if_pos hall.1]
  dsimp only
  show (⟨true, (getOutbox db).length, 0, 0⟩ : SyncStatus) ::
      publishedStatuses ((processOutboxItems resp now (getOutbox db) db
        ⟨true, (getOutbox db).length, 0, 0⟩).evs ++ [.statusPublished ⟨false, 0, 0, 0⟩]) = _
  rw [publishedStatuses_append, hall.2]
  rfl

/-- C8 witness: two queued items, the first replay succeeding and the
second rejected with 404: start, success publish, conflict publish,
terminal reset. -/
theorem drain_publishes_status_on_every_transition_witness :
    publishedStatuses (syncRun (fun it => if it.id = 1 then 200 else 404)
        ⟨[⟨1, "/a", "POST", Json.null, 4⟩, ⟨2, "/b", "PUT", Json.null, 5⟩], 3, [], 1, [], []⟩
        9).2.2 =
      [⟨true, 2, 0, 0⟩, ⟨true, 2, 1, 0⟩, ⟨true, 2, 2, 1⟩, ⟨false, 0, 0, 0⟩] := by
  have h := drain_publishes_status_on_every_transition
    (fun it => if it.id = 1 then 200 else 404)
    ⟨[⟨1, "/a", "POST", Json.null, 4⟩, ⟨2, "/b", "PUT", Json.null, 5⟩], 3, [], 1, [], []⟩
    9 rfl
    (by intro it hit; fin_cases hit <;> simp)
    (by intro it hit; fin_cases hit
        · exact Or.inl rfl
        · exact Or.inr rfl)
  rw [h]
  rfl

/-- Handling one item never touches outbox records with a different
id. -/
theorem processItemEvs_preserves_other (resp : OutboxItem → Nat) (now : Nat)
    (db : Db) (st : SyncStatus) (item it : OutboxItem)
    (hin : it ∈ db.outbox) (hne : it.id ≠ item.id) :
    it ∈ (processItemEvs resp now db st item).db.outbox := by
  unfold processItemEvs
  by_cases hz : item.id = 0
  · rw [if_pos hz]; exact hin
  · rw [if_neg hz]
    dsimp only
    by_cases hs : isSuccessStatus (resp item) = true
    · rw [if_pos hs, if_pos hz]
      exact List.mem_filter.mpr ⟨hin, by simpa using hne⟩
    · rw [if_neg hs]
      by_cases h4 : isClientError (resp item) = true
      · rw [if_pos h4, if_pos hz]
        exact List.mem_filter.mpr ⟨hin, by simpa using hne⟩
      · rw [if_neg h4]
        exact hin

/-- A drain only ever removes outbox records whose ids belong to the
items it processed. -/
theorem processOutboxItems_preserves_other_items (resp : OutboxItem → Nat) (now : Nat) :
    ∀ (items : List OutboxItem) (db : Db) (st : SyncStatus) (it : OutboxItem),
      it ∈ db.outbox → it.id ∉ items.map OutboxItem.id →
      it ∈ (processOutboxItems resp now items db st).db.outbox := by
  intro items
  induction items with
  | nil => intro db st it hin _; exact hin
  | cons item rest ih =>
    intro db st it hin hid
    have hne : it.id ≠ item.id := fun h => hid (by simp [h])
    have hrestid : it.id ∉ rest.map OutboxItem.id := fun h => hid (by simp [h])
    rw [processOutboxItems_cons]
    dsimp only
    by_cases halive : (processItemEvs resp now db st item).alive = true
    · rw [if_pos halive]
      exact ih _ _ it
        (processItemEvs_preserves_other resp now db st item it hin hne) hrestid
    · rw [if_neg halive]
      exact processItemEvs_preserves_other resp now db st item it hin hne

/-- All-non-fatal prefixes keep the stream alive. -/
theorem processOutboxItems_alive_of_nonfatal (resp : OutboxItem → Nat) (now : Nat) :
    ∀ (items : List OutboxItem) (db : Db) (st : SyncStatus),
      (∀ it ∈ items, it.id ≠ 0) →
      (∀ it ∈ items, isSuccessStatus (resp it) = true ∨ isClientError (resp it) = true) →
      (processOutboxItems resp now items db st).alive = true := by
  intro items
  induction items with
  | nil => intro db st _ _; rfl
  | cons item rest ih =>
    intro db st hnz hnf
    have hz : item.id ≠ 0 := hnz item (List.mem_cons_self item rest)
    have hrest := ih
    rcases hnf item (List.mem_cons_self item rest) with hs | h4
    · rw [processOutboxItems_cons,
        processItemEvs_success resp now db st item hz hs]
      dsimp only
      rw [if_pos rfl]
      exact hrest _ _ (fun it hit => hnz it (List.mem_cons_of_mem item hit))
        (fun it hit => hnf it (List.mem_cons_of_mem item hit))
    · rw [processOutboxItems_cons,
        processItemEvs_clientError resp now db st item hz h4]
      dsimp only
      rw [if_pos rfl]
      exact hrest _ _ (fun it hit => hnz it (List.mem_cons_of_mem item hit))
        (fun it hit => hnf it (List.mem_cons_of_mem item hit))

/-- C4: if the `k`-th remote call of a drain fails with a network or
server error (any non-2xx outside 400–499) after a prefix of
success/client-error items, the drain stops immediately: the store is
exactly what processing the prefix left (the failed item is neither
removed nor turned into a conflict, and the conflict log gains
nothing for it), the status keeps the prefix's counters and only drops
`isSyncing`, the trace ends with that failed call's publish (no
terminal reset, no calls for later items), and every queued record not
belonging to the prefix — the failed item and all items after it —
is still in the queue. -/
theorem drain_halts_on_server_or_network_error (resp : OutboxItem → Nat)
    (now : Nat) (db : Db) (st : SyncStatus)
    (pre post : List OutboxItem) (k : OutboxItem)
    (hprenz : ∀ it ∈ pre, it.id ≠ 0)
    (hprenf : ∀ it ∈ pre, isSuccessStatus (resp it) = true ∨ isClientError (resp it) = true)
    (hknz : k.id ≠ 0)
    (hkns : isSuccessStatus (resp k) = false)
    (hknc : isClientError (resp k) = false) :
    processOutboxItems resp now (pre ++ k :: post) db st =
      { db := (processOutboxItems resp now pre db st).db
        status :=
          { (processOutboxItems resp now pre db st).status with isSyncing := false }
        evs := (processOutboxItems resp now pre db st).evs ++
          [.callIssued k.method k.url k.payload,
           .callCompleted k.method k.url (resp k),
           .statusPublished
             { (processOutboxItems resp now pre db st).status with isSyncing := false }]
        alive := false } ∧
    (∀ it ∈ db.outbox, it.id ∉ pre.map OutboxItem.id →
      it ∈ (processOutboxItems resp now (pre ++ k :: post) db st).db.outbox) := by
  have hmain : ∀ (pre : List OutboxItem) (db : Db) (st : SyncStatus),
      (∀ it ∈ pre, it.id ≠ 0) →
      (∀ it ∈ pre, isSuccessStatus (resp it) = true ∨ isClientError (resp it) = true) →
      processOutboxItems resp now (pre ++ k :: post) db st =
        { db := (processOutboxItems resp now pre db st).db
          status :=
            { (processOutboxItems resp now pre db st).status with isSyncing := false }
          evs := (processOutboxItems resp now pre db st).evs ++
            [.callIssued k.method k.url k.payload,
             .callCompleted k.method k.url (resp k),
             .statusPublished
               { (processOutboxItems resp now pre db st).status with isSyncing := false }]
          alive := false } := by
    intro pre
    induction pre with
    | nil =>
        intro db st _ _
        rw [List.nil_append, processOutboxItems_cons,
          processItemEvs_fatal resp now db st k hknz hkns hknc]
        dsimp only
        rw [if_neg (by simp)]
        rfl
    | cons p ps ih =>
        intro db st hnz hnf
        have hpz : p.id ≠ 0 := hnz p (List.mem_cons_self p ps)
        have hpsnz : ∀ it ∈ ps, it.id ≠ 0 :=
          fun it hit => hnz it (List.mem_cons_of_mem p hit)
        have hpsnf : ∀ it ∈ ps,
            isSuccessStatus (resp it) = true ∨ isClientError (resp it) = true :=
          fun it hit => hnf it (List.mem_cons_of_mem p hit)
        rcases hnf p (List.mem_cons_self p ps) with hs | h4
        · rw [List.cons_append, processOutboxItems_cons,
            processItemEvs_success resp now db st p hpz hs]
          dsimp only
          rw [if_pos rfl]
          rw [ih _ _ hpsnz hpsnf]
          rw [processOutboxItems_cons,
            processItemEvs_success resp now db st p hpz hs]
          dsimp only
          rw [if_pos rfl]
          simp [List.append_assoc]
        · rw [List.cons_append, processOutboxItems_cons,
            processItemEvs_clientError resp now db st p hpz h4]
          dsimp only
          rw [if_pos rfl]
          rw [ih _ _ hpsnz hpsnf]
          rw [processOutboxItems_cons,
            processItemEvs_clientError resp now db st p hpz h4]
          dsimp only
          rw [if_pos rfl]
          simp [List.append_assoc]
  refine ⟨hmain pre db st hprenz hprenf, ?_⟩
  intro it hin hid
  rw [hmain pre db st hprenz hprenf]
  exact processOutboxItems_preserves_other_items resp now pre db st it hin hid

/-- C4 witness: item 1 succeeds, item 2 gets a 503 — the drain halts
with item 2 and item 3 still queued and no conflict recorded. -/
theorem drain_halts_on_server_or_network_error_witness :
    (isSuccessStatus 503 = false ∧ isClientError 503 = false) ∧
    (processOutboxItems (fun it => if it.id = 1 then 200 else 503) 9
        ([⟨1, "/a", "POST", Json.null, 4⟩] ++
          ⟨2, "/b", "PUT", Json.null, 5⟩ :: [⟨3, "/c", "DELETE", Json.null, 6⟩])
        ⟨[⟨1, "/a", "POST", Json.null, 4⟩, ⟨2, "/b", "PUT", Json.null, 5⟩,
          ⟨3, "/c", "DELETE", Json.null, 6⟩], 4, [], 1, [], []⟩
        ⟨true, 3, 0, 0⟩).alive = false := by
  refine ⟨⟨rfl, rfl⟩, ?_⟩
  have h := (drain_halts_on_server_or_network_error
    (fun it => if it.id = 1 then 200 else 503) 9
    ⟨[⟨1, "/a", "POST", Json.null, 4⟩, ⟨2, "/b", "PUT", Json.null, 5⟩,
      ⟨3, "/c", "DELETE", Json.null, 6⟩], 4, [], 1, [], []⟩
    ⟨true, 3, 0, 0⟩
    [⟨1, "/a", "POST", Json.null, 4⟩] [⟨3, "/c", "DELETE", Json.null, 6⟩]
    ⟨2, "/b", "PUT", Json.null, 5⟩
    (by intro it hit; fin_cases hit; simp)
    (by intro it hit; fin_cases hit; exact Or.inl rfl)
    (by simp) rfl rfl).1
  rw [h]

/-- The queued mutation of the conflict-relocation scenario. -/
def c3item : OutboxItem :=
  ⟨1, "/api/session-notes/1", "PUT", Json.obj [("note", Json.str "x")], 5⟩

/-- A store holding exactly that one queued mutation. -/
def c3db : Db := ⟨[c3item], 2, [], 1, [], []⟩

/-- C3 counterexample: drain the one-item queue against a remote that
answers 404.  `handleClientError` awaits `addToSyncConflicts` and only
then awaits `removeFromOutbox`, so the drain's observable trace
contains a store state — at a suspension point where any other
cooperatively scheduled task can read the store — in which the
mutation is still in the queue *and* its copy is already in the
conflict log: an intermediate state showing it in both collections. -/
theorem client_error_intermediate_state_in_both :
    (syncRun (fun _ => 404) c3db 9).2.2[3]? =
      some (.storeState [c3item]
        [⟨1, "/api/session-notes/1", "PUT", Json.obj [("note", Json.str "x")], 5,
          "HTTP 404"⟩]) ∧
    c3item ∈ [c3item] ∧
    (⟨1, "/api/session-notes/1", "PUT", Json.obj [("note", Json.str "x")], 5,
       "HTTP 404"⟩ : SyncConflict).url = c3item.url ∧
    (⟨1, "/api/session-notes/1", "PUT", Json.obj [("note", Json.str "x")], 5,
       "HTTP 404"⟩ : SyncConflict).timestamp = c3item.timestamp :=
  ⟨rfl, List.mem_singleton.mpr rfl, rfl, rfl⟩

/-- Whether a conflict record carries the url, method and enqueue
timestamp of a given outbox item. -/
def conflictMatches (k : OutboxItem) (c : SyncConflict) : Bool :=
  c.url == k.url && c.method == k.method && c.timestamp == k.timestamp

/-- C3 (amended): a replayed mutation that receives a 4xx during a
drain is moved from the queue to the conflict log preserving its url,
method, payload and `enqueuedAt` timestamp and gaining an error
description; afterwards it is in the conflict log exactly once and
absent from the queue, no intermediate observable state shows it in
*neither* collection (the state between the conflict insert and the
queue delete shows it in both), and the drain stays alive for the next
item. -/
theorem client_error_moved_to_conflict_log (resp : OutboxItem → Nat) (now : Nat)
    (db : Db) (st : SyncStatus) (k : OutboxItem)
    (hknz : k.id ≠ 0) (hts : k.timestamp ≠ 0)
    (h4 : isClientError (resp k) = true)
    (hnoc : ∀ c ∈ db.conflicts, conflictMatches k c = false) :
    (processItemEvs resp now db st k).db.conflicts =
      db.conflicts ++
        [⟨db.nextConflictId, k.url, k.method, k.payload, k.timestamp,
          "HTTP " ++ toString (resp k)⟩] ∧
    ((processItemEvs resp now db st k).db.conflicts.countP fun c =>
      conflictMatches k c) = 1 ∧
    (∀ it ∈ (processItemEvs resp now db st k).db.outbox, it.id ≠ k.id) ∧
    (processItemEvs resp now db st k).alive = true ∧
    (∀ ob cf, SyncEv.storeState ob cf ∈ (processItemEvs resp now db st k).evs →
      (∃ it ∈ ob, it.id = k.id) ∨ ∃ c ∈ cf, conflictMatches k c = true) := by
  rw [processItemEvs_clientError resp now db st k hknz h4]
  dsimp only
  have hstored : (if k.timestamp = 0 then now else k.timestamp) = k.timestamp :=
    if_neg hts
  have hconfl : (addToSyncConflicts db k.url k.method k.payload k.timestamp now
      ("HTTP " ++ toString (resp k))).conflicts =
      db.conflicts ++
        [⟨db.nextConflictId, k.url, k.method, k.payload, k.timestamp,
          "HTTP " ++ toString (resp k)⟩] := by
    unfold addToSyncConflicts
    dsimp only
    rw [hstored]
  have hmatch : conflictMatches k
      ⟨db.nextConflictId, k.url, k.method, k.payload, k.timestamp,
        "HTTP " ++ toString (resp k)⟩ = true := by
    simp [conflictMatches]
  refine ⟨?_, ?_, ?_, rfl, ?_⟩
  · show (addToSyncConflicts db k.url k.method k.payload k.timestamp now
      ("HTTP " ++ toString (resp k))).conflicts = _
    exact hconfl
  · show ((addToSyncConflicts db k.url k.method k.payload k.timestamp now
      ("HTTP " ++ toString (resp k))).conflicts.countP _) = 1
    rw [hconfl, List.countP_append]
    have h0 : db.conflicts.countP (fun c => conflictMatches k c) = 0 := by
      rw [List.countP_eq_zero]
      intro c hc
      simp [hnoc c hc]
    rw [h0]
    simp [List.countP, List.countP.go, hmatch]
  · intro it hit
    have := List.mem_filter.mp hit
    simpa using this.2
  · intro ob cf hmem
    have hsplit :
        (SyncEv.storeState ob cf =
          .storeState (addToSyncConflicts db k.url k.method k.payload k.timestamp now
            ("HTTP " ++ toString (resp k))).outbox
            (addToSyncConflicts db k.url k.method k.payload k.timestamp now
              ("HTTP " ++ toString (resp k))).conflicts) ∨
        (SyncEv.storeState ob cf =
          .storeState (removeFromOutbox (addToSyncConflicts db k.url k.method k.payload
              k.timestamp now ("HTTP " ++ toString (resp k))) k.id).outbox
            (removeFromOutbox (addToSyncConflicts db k.url k.method k.payload
              k.timestamp now ("HTTP " ++ toString (resp k))) k.id).conflicts) := by
      simp only [List.mem_cons, List.not_mem_nil, or_false] at hmem
      rcases hmem with h | h | h | h | h
      · cases h
      · cases h
      · exact Or.inl h
      · exact Or.inr h
      · cases h
    refine Or.inr ?_
    have hgoal : ∀ cf' : List SyncConflict,
        cf' = db.conflicts ++
          [⟨db.nextConflictId, k.url, k.method, k.payload, k.timestamp,
            "HTTP " ++ toString (resp k)⟩] →
        ∃ c ∈ cf', conflictMatches k c = true := by
      intro cf' hcf'
      exact ⟨_, by rw [hcf']; exact List.mem_append_right _ (List.mem_singleton.mpr rfl),
        hmatch⟩
    rcases hsplit with h | h
    · have hcf : cf = (addToSyncConflicts db k.url k.method k.payload k.timestamp now
          ("HTTP " ++ toString (resp k))).conflicts := by
        injection h
      exact hgoal cf (hcf.trans hconfl)
    · have hcf : cf = (addToSyncConflicts db k.url k.method k.payload k.timestamp now
          ("HTTP " ++ toString (resp k))).conflicts := by
        injection h
      exact hgoal cf (hcf.trans hconfl)

/-- C3 witness: the one-item 404 drain scenario satisfies every
hypothesis and conclusion of the amended relocation theorem. -/
theorem client_error_moved_to_conflict_log_witness :
    (c3item.id ≠ 0 ∧ c3item.timestamp ≠ 0 ∧ isClientError 404 = true) ∧
    (processItemEvs (fun _ => 404) 9 c3db ⟨true, 1, 0, 0⟩ c3item).db.conflicts =
      [] ++ [⟨1, "/api/session-notes/1", "PUT", Json.obj [("note", Json.str "x")], 5,
        "HTTP 404"⟩] :=
  ⟨⟨by simp [c3item], by simp [c3item], rfl⟩,
   (client_error_moved_to_conflict_log (fun _ => 404) 9 c3db ⟨true, 1, 0, 0⟩ c3item
      (by simp [c3item]) (by simp [c3item]) rfl
      (by intro c hc; cases hc)).1⟩

/-!
Section: Claims about store initialization
-/

set_option maxRecDepth 40000

/-- The reachable-set closure: every step from a reachable
configuration stays in the enumerated set. -/
theorem init_reachable_closed :
    ∀ c ∈ Init.reachableConfigs, ∀ b : Bool, Init.step c b ∈ Init.reachableConfigs := by
  decide

/-- The start configuration is enumerated. -/
theorem init_start_reachable : Init.initConfig ∈ Init.reachableConfigs := by
  decide

/-- Completing any reachable configuration yields one schema upgrade,
a set database handle, and the two sample notes seeded exactly once. -/
theorem init_reachable_final_ok :
    ∀ c ∈ Init.reachableConfigs,
      (Init.finish c).sh.upgradeCount = 1 ∧
      (Init.finish c).sh.dbField.isSome = true ∧
      (Init.finish c).sh.notes = [1, 2] := by
  decide

/-- Schedules keep configurations inside the enumerated set. -/
theorem init_run_reachable :
    ∀ (s : List Bool) (c : Init.Config), c ∈ Init.reachableConfigs →
      Init.run s c ∈ Init.reachableConfigs := by
  intro s
  induction s with
  | nil => intro c hc; exact hc
  | cons b bs ih =>
      intro c hc
      exact ih (Init.step c b) (init_reachable_closed c hc b)

/-- C9: under every cooperative interleaving of two `init()` calls on
a fresh store (including one call strictly after the other), and after
both calls complete, the schema upgrade has run exactly once, `this.db`
holds a single handle, and the `sessionNotes` collection carries the
two fixed sample records exactly once each — seeding happened only for
the empty collection and no duplicate seed data exists, because the
second seeding attempt's `add` of an existing key is rejected and
swallowed. -/
theorem init_concurrent_idempotent (s : List Bool) :
    (Init.finish (Init.run s Init.initConfig)).sh.upgradeCount = 1 ∧
    (Init.finish (Init.run s Init.initConfig)).sh.dbField.isSome = true ∧
    (Init.finish (Init.run s Init.initConfig)).sh.notes = [1, 2] :=
  init_reachable_final_ok (Init.run s Init.initConfig)
    (init_run_reachable s Init.initConfig init_start_reachable)

end OfflineFirst
